import Mathlib

/-!
Shallow embedding of the node load balancer: the backend registry
(`servers`), the shared round-robin cursor (`index`), the sticky-session
table (`stickyMap`), the selection functions `getStickyServer` and
`chooseServer`, the request handler (`resolveTarget`, `forwardPhase`,
`dispatch` with its one-shot retry), the health-check state update
(`checkHealthOne`), and the `servers.json` reload path (`loadServers`,
`reloadCallback`).  JavaScript exceptions are modelled by `Except String`:
a `.error` value means the corresponding JS code throws at that point.
Wall-clock instants are `Nat` milliseconds.
-/

/-- One slot of a backend's `history` array: the JS code stores either the
string `" "` (initial filler) or a number (`0` marks a failed probe, a
positive value is the measured latency of a successful probe). -/
inductive HistEntry where
  | blank : HistEntry
  | num : Nat → HistEntry
deriving DecidableEq, Repr

/-- One entry of the `servers` registry, mirroring the object built by
`loadServers` and mutated by `checkHealth`. -/
structure Server where
  url : String
  region : Option String
  healthy : Bool
  responseTime : Option Nat
  lastCheck : Option Nat
  uptime : Nat
  downtime : Nat
  history : List HistEntry
deriving DecidableEq, Repr

/-- A backend descriptor as read from `servers.json`. -/
structure Desc where
  url : String
  region : Option String
deriving DecidableEq, Repr

/-- The mutable module-level state of the balancer: the registry, the
shared round-robin cursor `index`, and the sticky `Map`. -/
structure LBState where
  servers : List Server
  index : Nat
  stickyMap : List (String × String)
deriving DecidableEq, Repr

/-- `servers.filter((s) => s.healthy)` — the healthy subset, in registry
order. -/
def aliveList (servers : List Server) : List Server :=
  servers.filter (fun s => s.healthy)

/-- `chooseServer`: filter the healthy subset; return `null` when it is
empty; otherwise read `alive[index].url` and only afterwards set
`index = (index + 1) % alive.length`.  In JS, when `index` is not less
than `alive.length`, `alive[index]` is `undefined` and reading `.url`
throws a `TypeError`; this is the `.error` branch. -/
def chooseServer (servers : List Server) (index : Nat) :
    Except String (Option String × Nat) :=
  let alive := aliveList servers
  if alive.length = 0 then .ok (none, index)
  else
    match alive[index]? with
    | none => .error "TypeError"
    | some s => .ok (some s.url, (index + 1) % alive.length)

/-- `stickyMap.get` on the association-list model of a JS `Map`. -/
def mapGet (m : List (String × String)) (k : String) : Option String :=
  (m.find? (fun p => p.fst == k)).map (fun p => p.snd)

/-- `stickyMap.set`: overwrite the entry for `k` when present, otherwise
append it (JS `Map` keeps insertion order). -/
def mapSet (m : List (String × String)) (k v : String) :
    List (String × String) :=
  if m.any (fun p => p.fst == k) then
    m.map (fun p => if p.fst == k then (k, v) else p)
  else m ++ [(k, v)]

/-- `getStickyServer`: look the client up in the sticky map; if mapped,
return the url only when some registry entry with that url is healthy. -/
def getStickyServer (clientId : String) (st : LBState) : Option String :=
  match mapGet st.stickyMap clientId with
  | none => none
  | some url =>
    match st.servers.find? (fun s => s.url == url && s.healthy) with
    | some alive => some alive.url
    | none => none

/-- The target-resolution prefix of the catch-all request handler:
sticky lookup first; on a miss, `chooseServer`, recording a non-null pick
in the sticky map. -/
def resolveTarget (clientId : String) (st : LBState) :
    Except String (Option String × LBState) :=
  match getStickyServer clientId st with
  | some url => .ok (some url, st)
  | none =>
    match chooseServer st.servers st.index with
    | .error e => .error e
    | .ok (t, i2) =>
      match t with
      | some url =>
        .ok (some url, { st with index := i2,
                                 stickyMap := mapSet st.stickyMap clientId url })
      | none => .ok (none, { st with index := i2 })

/-- Result of one dispatch, as seen by the client. -/
inductive DispatchResult where
  | proxied : Option String → DispatchResult
  | unavailable503 : DispatchResult
  | lbError500 : DispatchResult
deriving DecidableEq, Repr

/-- The `send(retry)` recursion of the handler, unrolled (the flag bounds
it to two attempts).  `fwd n t` tells whether `proxy.web` succeeds on
attempt `n` against target `t`; the returned list records every target
actually handed to `proxy.web`, in order.  On the first failure the code
re-runs `chooseServer` (which may itself throw) and retries exactly once;
a second failure answers 500. -/
def forwardPhase (target : String) (fwd : Nat → Option String → Bool)
    (st : LBState) :
    Except String (DispatchResult × List (Option String) × LBState) :=
  if fwd 0 (some target) then
    .ok (.proxied (some target), [some target], st)
  else
    match chooseServer st.servers st.index with
    | .error e => .error e
    | .ok (t2, i2) =>
      let st2 := { st with index := i2 }
      if fwd 1 t2 then .ok (.proxied t2, [some target, t2], st2)
      else .ok (.lbError500, [some target, t2], st2)

/-- The whole catch-all handler: resolve a target, answer 503 when none,
otherwise forward with the one-shot retry of `forwardPhase`. -/
def dispatch (clientId : String) (fwd : Nat → Option String → Bool)
    (st : LBState) :
    Except String (DispatchResult × List (Option String) × LBState) :=
  match resolveTarget clientId st with
  | .error e => .error e
  | .ok (none, st1) => .ok (.unavailable503, [], st1)
  | .ok (some url, st1) => forwardPhase url fwd st1

/-- The per-descriptor initial state built by `loadServers`: spread the
descriptor, then `healthy:false`, null timing, zero counters and twenty
blank history slots. -/
def initServer (d : Desc) : Server :=
  { url := d.url, region := d.region, healthy := false,
    responseTime := none, lastCheck := none, uptime := 0, downtime := 0,
    history := List.replicate 20 HistEntry.blank }

/-- `loadServers` after a successful `JSON.parse`: map every descriptor to
its initial runtime state. -/
def loadServers (descs : List Desc) : List Server :=
  descs.map initServer

/-- `servers = loadServers()` in the watch callback, on a well-formed
file: replace the registry; cursor and sticky map are left alone. -/
def reloadOk (descs : List Desc) (st : LBState) : LBState :=
  { st with servers := loadServers descs }

/-- The `fs.watch` callback.  `content` is the parse of `servers.json`:
`some descs` when the file is well-formed, `none` when `JSON.parse`
throws.  The callback has no try/catch, so in the malformed case the
exception escapes the callback (`.error`), which in Node is an uncaught
exception. -/
def reloadCallback (content : Option (List Desc)) (st : LBState) :
    Except String LBState :=
  match content with
  | some descs => .ok (reloadOk descs st)
  | none => .error "SyntaxError"

/-- The history entry pushed by one probe outcome: the measured latency
`tEnd - start` on a 2xx response, the number `0` on any other status or
on a transport error. -/
def pushedEntry (start tEnd : Nat) (res : Option Nat) : HistEntry :=
  match res with
  | some code =>
    if 200 ≤ code ∧ code < 300 then HistEntry.num (tEnd - start)
    else HistEntry.num 0
  | none => HistEntry.num 0

/-- One backend's state update for one completed probe, from the
`checkHealth` promise of the express variant.  `start` is `Date.now()`
taken before the request, `tEnd` the wall clock when the outcome arrives,
`res = some statusCode` for a response and `none` for an `error` event.
A status in `[200, 300)` is a success; anything else is a failure.  After
the push, `if (s.history.length > 20) s.history.shift()`. -/
def checkHealthOne (s : Server) (start tEnd : Nat) (res : Option Nat) :
    Server :=
  let s2 :=
    match res with
    | some code =>
      if 200 ≤ code ∧ code < 300 then
        { s with healthy := true, responseTime := some (tEnd - start),
                 uptime := s.uptime + 1,
                 history := s.history ++ [HistEntry.num (tEnd - start)],
                 lastCheck := some tEnd }
      else
        { s with healthy := false, responseTime := none,
                 downtime := s.downtime + 1,
                 history := s.history ++ [HistEntry.num 0],
                 lastCheck := some tEnd }
    | none =>
      { s with healthy := false, responseTime := none,
               downtime := s.downtime + 1,
               history := s.history ++ [HistEntry.num 0],
               lastCheck := some tEnd }
  if s2.history.length > 20 then { s2 with history := s2.history.tail }
  else s2

/-- A sequence of completed probes against one backend, applied in order;
each element is `(start, tEnd, res)`. -/
def runProbes (s : Server) (ps : List (Nat × Nat × Option Nat)) : Server :=
  ps.foldl (fun s p => checkHealthOne s p.1 p.2.1 p.2.2) s

/-- `n` consecutive `chooseServer` calls (round-robin only, no sticky
lookups), collecting the returned targets. -/
def selectN : Nat → LBState → Except String (List (Option String) × LBState)
  | 0, st => .ok ([], st)
  | n + 1, st =>
    match chooseServer st.servers st.index with
    | .error e => .error e
    | .ok (t, i2) =>
      match selectN n { st with index := i2 } with
      | .error e => .error e
      | .ok (outs, st2) => .ok (t :: outs, st2)

/-- A fully concrete backend record used in concrete states below. -/
def mkServer (url : String) (healthy : Bool) : Server :=
  { url := url, region := none, healthy := healthy, responseTime := none,
    lastCheck := none, uptime := 0, downtime := 0,
    history := List.replicate 20 HistEntry.blank }

/-- The history-trimming step seen from before the push: when the history
is already at capacity the oldest entry is dropped. -/
def trimmed (l : List HistEntry) : List HistEntry :=
  if 20 ≤ l.length then l.tail else l

theorem trim_append (l : List HistEntry) (e : HistEntry) :
    (if (l ++ [e]).length > 20 then (l ++ [e]).tail else l ++ [e]) =
      trimmed l ++ [e] := by
  unfold trimmed
  rcases l with _ | ⟨a, t⟩
  · simp
  · by_cases h : 20 ≤ (a :: t).length
    · rw [if_pos (by simp at h ⊢; omega), if_pos h]
      simp
    · rw [if_neg (by simp at h ⊢; omega), if_neg h]

theorem mapGet_mapSet_self (m : List (String × String)) (k v : String) :
    mapGet (mapSet m k v) k = some v := by
  induction m with
  | nil => simp [mapGet, mapSet]
  | cons a t ih =>
    by_cases hak : a.fst = k
    · simp [mapGet, mapSet, hak]
    · have hstep : mapGet (mapSet (a :: t) k v) k = mapGet (mapSet t k v) k := by
        by_cases hany : t.any (fun p => p.fst == k) = true
        · simp [mapGet, mapSet, hak, hany]
        · simp [mapGet, mapSet, hak, hany]
      rw [hstep, ih]

theorem checkHealthOne_history (s : Server) (start tEnd : Nat)
    (res : Option Nat) :
    (checkHealthOne s start tEnd res).history =
      trimmed s.history ++ [pushedEntry start tEnd res] := by
  have h0 := trim_append s.history (HistEntry.num 0)
  rcases res with _ | code
  · simpa [checkHealthOne, pushedEntry,
      apply_ite (fun x : Server => x.history)] using h0
  · by_cases hc : 200 ≤ code ∧ code < 300
    · have h1 := trim_append s.history (HistEntry.num (tEnd - start))
      simpa [checkHealthOne, pushedEntry, hc,
        apply_ite (fun x : Server => x.history)] using h1
    · simpa [checkHealthOne, pushedEntry, hc,
        apply_ite (fun x : Server => x.history)] using h0

theorem checkHealthOne_history_length (s : Server) (start tEnd : Nat)
    (res : Option Nat) (h : s.history.length = 20) :
    (checkHealthOne s start tEnd res).history.length = 20 := by
  rw [checkHealthOne_history]
  simp [trimmed, h]

theorem runProbes_history_length (s : Server)
    (ps : List (Nat × Nat × Option Nat)) (h : s.history.length = 20) :
    (runProbes s ps).history.length = 20 := by
  induction ps generalizing s with
  | nil => simpa [runProbes] using h
  | cons p t ih =>
    have : runProbes s (p :: t) =
        runProbes (checkHealthOne s p.1 p.2.1 p.2.2) t := rfl
    rw [this]
    exact ih _ (checkHealthOne_history_length s p.1 p.2.1 p.2.2 h)

theorem chooseServer_in_range (servers : List Server) (i : Nat)
    (h : i < (aliveList servers).length) :
    chooseServer servers i =
      .ok (some ((aliveList servers)[i]).url,
           (i + 1) % (aliveList servers).length) := by
  unfold chooseServer
  rw [if_neg (by omega), List.getElem?_eq_getElem h]

theorem resolveTarget_sticky_hit (st : LBState) (cid u : String)
    (hmap : mapGet st.stickyMap cid = some u)
    (hex : ∃ s, s ∈ st.servers ∧ s.url = u ∧ s.healthy = true) :
    resolveTarget cid st = .ok (some u, st) := by
  obtain ⟨s0, hmem, hurl, hh⟩ := hex
  have hsome : (st.servers.find? (fun s => s.url == u && s.healthy)).isSome := by
    rw [List.find?_isSome]
    exact ⟨s0, hmem, by simp [hurl, hh]⟩
  obtain ⟨a, ha⟩ := Option.isSome_iff_exists.mp hsome
  have hpa := List.find?_some ha
  have haurl : a.url = u := by
    have := ((Bool.and_eq_true _ _).mp hpa).1
    simpa using this
  simp only [resolveTarget, getStickyServer, hmap, ha, haurl]

theorem getStickyServer_none_of_unhealthy (st : LBState) (cid u : String)
    (hmap : mapGet st.stickyMap cid = some u)
    (hall : ∀ s, s ∈ st.servers → s.url = u → s.healthy = false) :
    getStickyServer cid st = none := by
  have hfind : st.servers.find? (fun s => s.url == u && s.healthy) = none := by
    rw [List.find?_eq_none]
    intro x hx hpx
    have hdx := (Bool.and_eq_true _ _).mp hpx
    have hxu : x.url = u := by simpa using hdx.1
    have := hall x hx hxu
    rw [this] at hdx
    exact Bool.false_ne_true hdx.2
  simp only [getStickyServer, hmap, hfind]

theorem getStickyServer_some (st : LBState) (cid w : String)
    (h : getStickyServer cid st = some w) :
    mapGet st.stickyMap cid = some w := by
  unfold getStickyServer at h
  cases hm : mapGet st.stickyMap cid with
  | none => simp [hm] at h
  | some url =>
    simp only [hm] at h
    cases hf : st.servers.find? (fun s => s.url == url && s.healthy) with
    | none => simp [hf] at h
    | some a =>
      simp only [hf] at h
      have hpa := List.find?_some hf
      have haurl : a.url = url := by
        have := ((Bool.and_eq_true _ _).mp hpa).1
        simpa using this
      have hw : a.url = w := by injection h
      rw [← hw, haurl]

theorem resolveTarget_some_maps (st st1 : LBState) (cid u : String)
    (h : resolveTarget cid st = .ok (some u, st1)) :
    mapGet st1.stickyMap cid = some u := by
  unfold resolveTarget at h
  cases hg : getStickyServer cid st with
  | some w =>
    simp only [hg, Except.ok.injEq, Prod.mk.injEq, Option.some.injEq] at h
    obtain ⟨hw, hst⟩ := h
    rw [← hst, getStickyServer_some st cid w hg, hw]
  | none =>
    simp only [hg] at h
    cases hc : chooseServer st.servers st.index with
    | error e => simp [hc] at h
    | ok p =>
      obtain ⟨t, i2⟩ := p
      simp only [hc] at h
      cases t with
      | none => simp at h
      | some v =>
        simp only [Except.ok.injEq, Prod.mk.injEq, Option.some.injEq] at h
        obtain ⟨hv, hst⟩ := h
        rw [← hst]
        show mapGet (mapSet st.stickyMap cid v) cid = some u
        rw [mapGet_mapSet_self, hv]

theorem dispatch_retry_run (st st1 : LBState) (cid u : String)
    (fwd : Nat → Option String → Bool) (t2 : Option String) (i2 : Nat)
    (h1 : resolveTarget cid st = .ok (some u, st1))
    (hf : fwd 0 (some u) = false)
    (h2 : chooseServer st1.servers st1.index = .ok (t2, i2)) :
    dispatch cid fwd st =
      .ok ((if fwd 1 t2 then DispatchResult.proxied t2
            else DispatchResult.lbError500),
           [some u, t2], { st1 with index := i2 }) := by
  simp only [dispatch, forwardPhase, h1, hf, h2, Bool.false_eq_true,
    if_false]
  split <;> rfl

theorem selectN_spec (n : Nat) (st : LBState)
    (hi : st.index < (aliveList st.servers).length) :
    ∃ outs st2, selectN n st = .ok (outs, st2) ∧
      outs.length = n ∧
      st2.servers = st.servers ∧
      st2.stickyMap = st.stickyMap ∧
      st2.index = (st.index + n) % (aliveList st.servers).length ∧
      ∀ k, k < n →
        outs[k]? =
          ((aliveList st.servers)[(st.index + k) %
              (aliveList st.servers).length]?).map (fun s => some s.url) := by
  induction n generalizing st with
  | zero =>
    refine ⟨[], st, rfl, rfl, rfl, rfl, ?_, ?_⟩
    · rw [Nat.add_zero, Nat.mod_eq_of_lt hi]
    · intro k hk
      exact absurd hk (Nat.not_lt_zero k)
  | succ n ih =>
    have hN : 0 < (aliveList st.servers).length := Nat.lt_of_le_of_lt (Nat.zero_le _) hi
    have hcs := chooseServer_in_range st.servers st.index hi
    have hlt2 : ((st.index + 1) % (aliveList st.servers).length) <
        (aliveList st.servers).length := Nat.mod_lt _ hN
    obtain ⟨outs, st2, heq, hlen, hsrv, hsticky, hidx, hget⟩ :=
      ih { st with index := (st.index + 1) % (aliveList st.servers).length } hlt2
    refine ⟨some ((aliveList st.servers)[st.index]).url :: outs, st2,
      ?_, ?_, hsrv, hsticky, ?_, ?_⟩
    · simp only [selectN, hcs, heq]
    · simp [hlen]
    · rw [hidx]
      show ((st.index + 1) % (aliveList st.servers).length + n) %
          (aliveList st.servers).length =
        (st.index + (n + 1)) % (aliveList st.servers).length
      rw [Nat.mod_add_mod]
      have harith : st.index + 1 + n = st.index + (n + 1) := by omega
      rw [harith]
    · intro k hk
      cases k with
      | zero =>
        rw [Nat.add_zero, Nat.mod_eq_of_lt hi, List.getElem?_eq_getElem hi]
        simp
      | succ k =>
        have hk2 : k < n := by omega
        have := hget k hk2
        rw [List.getElem?_cons_succ, this]
        show ((aliveList st.servers)[((st.index + 1) %
            (aliveList st.servers).length + k) %
            (aliveList st.servers).length]?).map (fun s => some s.url) = _
        rw [Nat.mod_add_mod]
        have harith : st.index + 1 + k = st.index + (k + 1) := by omega
        rw [harith]

theorem selectN_full_cycle_perm (st : LBState) (outs : List (Option String))
    (st2 : LBState)
    (hi : st.index < (aliveList st.servers).length)
    (heq : selectN (aliveList st.servers).length st = .ok (outs, st2)) :
    outs.Perm ((aliveList st.servers).map (fun s => some s.url)) := by
  obtain ⟨outs2, st3, heq2, hlen, _, _, _, hget⟩ :=
    selectN_spec (aliveList st.servers).length st hi
  rw [heq] at heq2
  simp only [Except.ok.injEq, Prod.mk.injEq] at heq2
  obtain ⟨ho, -⟩ := heq2
  subst ho
  have hrot : outs =
      ((aliveList st.servers).rotate st.index).map (fun s => some s.url) := by
    apply List.ext_getElem?
    intro k
    by_cases hk : k < (aliveList st.servers).length
    · rw [hget k hk, List.getElem?_map]
      have hr : ((aliveList st.servers).rotate st.index)[k]? =
          (aliveList st.servers)[(k + st.index) %
            (aliveList st.servers).length]? := by
        have := List.get?_rotate (l := aliveList st.servers)
          (n := st.index) (m := k) hk
        simpa [List.get?_eq_getElem?] using this
      rw [hr, Nat.add_comm k st.index]
    · rw [List.getElem?_eq_none (by omega),
        List.getElem?_eq_none (by simpa using by omega)]
  rw [hrot]
  exact (List.rotate_perm (aliveList st.servers) st.index).map _

/-- Two healthy backends, fresh state: the base state of the retry
scenarios. -/
def wServers : List Server := [mkServer "a" true, mkServer "b" true]

def wSt : LBState := { servers := wServers, index := 0, stickyMap := [] }

/-- State after the first resolution of client "c" on `wSt`. -/
def wSt1 : LBState :=
  { servers := wServers, index := 1, stickyMap := [("c", "a")] }

/-- State after the retry pick on `wSt1`. -/
def wStEnd : LBState :=
  { servers := wServers, index := 0, stickyMap := [("c", "a")] }

/-- Sticky client "f" mapped to the unhealthy "a", healthy subset ["b"],
cursor 1: the out-of-range-cursor state. -/
def c3CrashSt : LBState :=
  { servers := [mkServer "a" false, mkServer "b" true], index := 1,
    stickyMap := [("f", "a")] }

/-- Sticky client "f" mapped to the healthy "a". -/
def c3HitSt : LBState :=
  { servers := [mkServer "a" true, mkServer "b" true], index := 0,
    stickyMap := [("f", "a")] }

/-- Sticky client "f" mapped to the now-unhealthy "a", cursor in range. -/
def c3MoveSt : LBState :=
  { servers := [mkServer "a" false, mkServer "b" true], index := 0,
    stickyMap := [("f", "a")] }

/-- No backend healthy, client "c" stickily mapped to the dead "a". -/
def c4St : LBState :=
  { servers := [mkServer "a" false], index := 0, stickyMap := [("c", "a")] }

/-- Three healthy backends, cursor 0: the round-robin scenario state. -/
def cycleSt : LBState :=
  { servers := [mkServer "a" true, mkServer "b" true, mkServer "c" true],
    index := 0, stickyMap := [] }

/-- A backend with fully populated runtime state, for the reload claims. -/
def dirtyServer : Server :=
  { url := "a", region := some "eu", healthy := true,
    responseTime := some 42, lastCheck := some 999, uptime := 7,
    downtime := 3, history := [HistEntry.num 42] }

def dirtySt : LBState :=
  { servers := [dirtyServer], index := 5, stickyMap := [("c", "a")] }

/-- Claim C1: the spec says that a selection call made while the shared
cursor is at or beyond the healthy-subset size re-wraps the cursor via
modulo and returns a valid address without raising an exception.  The
code reads `alive[index].url` before applying the modulo, so such a call
dereferences `undefined` and throws a `TypeError` instead: here one
backend is healthy and the cursor is 1. -/
theorem chooseServer_out_of_range_throws :
    (aliveList [mkServer "a" true]).length = 1 ∧
    chooseServer [mkServer "a" true] 1 = .error "TypeError" :=
  ⟨rfl, rfl⟩

/-- Sticky client "c" mapped to the healthy "a" (so resolution is a
sticky hit that does not touch the cursor), with the shared cursor at 1,
out of range of the one-element healthy subset. -/
def c2CrashSt : LBState :=
  { servers := [mkServer "a" true], index := 1, stickyMap := [("c", "a")] }

/-- Counterexample to claim C2 as stated: at `c2CrashSt` the resolution
succeeds (sticky hit on "a", cursor untouched at 1) and the first forward
fails, yet no retry forward and no 500 result follow: the retry's
`chooseServer` pick reads `alive[1]` of a one-element healthy subset and
throws, and the exception escapes the dispatch. -/
theorem dispatch_retry_crash_counterexample :
    getStickyServer "c" c2CrashSt = some "a" ∧
    resolveTarget "c" c2CrashSt = .ok (some "a", c2CrashSt) ∧
    dispatch "c" (fun _ _ => false) c2CrashSt = .error "TypeError" :=
  ⟨rfl, rfl, rfl⟩

/-- Claim C2 (amended): when the first forward of a dispatch fails and
the retry's `chooseServer` pick returns — the proviso the counterexample
forces: on a sticky-hit resolution the cursor can be out of range of the
healthy subset and the retry pick throws instead (the same cursor bug as
C1) — exactly one retry happens: the retry target is a fresh
`chooseServer` pick (that function reads only the registry and the
cursor, never the sticky table), the request is forwarded exactly once
more — the attempt list is exactly `[first, retry]` — and if the second
forward also fails the result is the load-balancer 500 error with no
further attempt. -/
theorem dispatch_retry_once (st st1 : LBState) (cid u : String)
    (fwd : Nat → Option String → Bool) (t2 : Option String) (i2 : Nat)
    (h1 : resolveTarget cid st = .ok (some u, st1))
    (hf : fwd 0 (some u) = false)
    (h2 : chooseServer st1.servers st1.index = .ok (t2, i2)) :
    dispatch cid fwd st =
      .ok ((if fwd 1 t2 then DispatchResult.proxied t2
            else DispatchResult.lbError500),
           [some u, t2], { st1 with index := i2 }) ∧
    (fwd 1 t2 = false →
      dispatch cid fwd st =
        .ok (DispatchResult.lbError500, [some u, t2],
             { st1 with index := i2 })) := by
  have hrun := dispatch_retry_run st st1 cid u fwd t2 i2 h1 hf h2
  refine ⟨hrun, fun hft => ?_⟩
  rw [hrun, hft]
  simp

/-- Witness for C2 (amended): both backends healthy, both forwards fail;
the dispatch makes exactly the attempts "a" then "b" and answers 500. -/
theorem dispatch_retry_once_witness :
    dispatch "c" (fun _ _ => false) wSt =
      .ok (DispatchResult.lbError500, [some "a", some "b"], wStEnd) :=
  (dispatch_retry_once wSt wSt1 "c" "a" (fun _ _ => false) (some "b") 0
    rfl rfl rfl).2 rfl

/-- Counterexample to claim C3 as stated: client "f" is sticky-mapped to
backend "a", no registry entry with url "a" is healthy, and a healthy
backend "b" exists; yet the next `resolveTarget` call for "f" neither
returns a different healthy backend nor `none` — it throws, because the
round-robin fallback reads `alive[1]` of a one-element healthy subset. -/
theorem resolveTarget_sticky_crash_counterexample :
    mapGet c3CrashSt.stickyMap "f" = some "a" ∧
    c3CrashSt.servers.filter (fun s => s.url == "a" && s.healthy) = [] ∧
    aliveList c3CrashSt.servers = [mkServer "b" true] ∧
    resolveTarget "f" c3CrashSt = .error "TypeError" :=
  ⟨rfl, rfl, rfl, rfl⟩

/-- Claim C3 (amended): with client `cid` sticky-mapped to `u`:
(1) while some registry entry with url `u` is healthy, `resolveTarget`
returns `u` and leaves the state unchanged, so repeated calls keep
returning `u`; (2) once every entry with url `u` is unhealthy — provided
the shared cursor is within the bounds of the healthy subset, the proviso
the counterexample forces — the call returns `none` when no backend is
healthy and the state is unchanged, and otherwise returns a healthy
backend different from `u` and records it as the new sticky mapping for
`cid`. -/
theorem sticky_session_resolution (st : LBState) (cid u : String)
    (hmap : mapGet st.stickyMap cid = some u) :
    ((∃ s, s ∈ st.servers ∧ s.url = u ∧ s.healthy = true) →
      resolveTarget cid st = .ok (some u, st)) ∧
    ((∀ s, s ∈ st.servers → s.url = u → s.healthy = false) →
      ((aliveList st.servers).length = 0 →
        resolveTarget cid st = .ok (none, st)) ∧
      (st.index < (aliveList st.servers).length →
        ∃ v st2, resolveTarget cid st = .ok (some v, st2) ∧ v ≠ u ∧
          mapGet st2.stickyMap cid = some v)) := by
  refine ⟨resolveTarget_sticky_hit st cid u hmap, fun hall => ⟨?_, ?_⟩⟩
  · intro hlen
    have hgs := getStickyServer_none_of_unhealthy st cid u hmap hall
    have hcs : chooseServer st.servers st.index = .ok (none, st.index) := by
      unfold chooseServer
      rw [if_pos hlen]
    simp only [resolveTarget, hgs, hcs]
  · intro hidx
    have hgs := getStickyServer_none_of_unhealthy st cid u hmap hall
    have hcs := chooseServer_in_range st.servers st.index hidx
    refine ⟨((aliveList st.servers)[st.index]).url,
      { st with index := (st.index + 1) % (aliveList st.servers).length,
                stickyMap := mapSet st.stickyMap cid
                  ((aliveList st.servers)[st.index]).url },
      ?_, ?_, ?_⟩
    · simp only [resolveTarget, hgs, hcs]
    · have hmem : (aliveList st.servers)[st.index] ∈ aliveList st.servers :=
        List.getElem_mem _
      have hmem2 : (aliveList st.servers)[st.index] ∈ st.servers ∧
          ((aliveList st.servers)[st.index]).healthy = true :=
        List.mem_filter.mp hmem
      intro hequ
      have hfalse := hall _ hmem2.1 hequ
      rw [hfalse] at hmem2
      exact Bool.false_ne_true hmem2.2
    · exact mapGet_mapSet_self _ _ _

/-- Witness for C3: at `c3HitSt` the sticky hit keeps returning "a"; at
`c3MoveSt` (same mapping, "a" now down, cursor in range) the call returns
a healthy backend other than "a" and re-maps "f" to it. -/
theorem sticky_session_resolution_witness :
    (resolveTarget "f" c3HitSt = .ok (some "a", c3HitSt)) ∧
    (∃ v st2, resolveTarget "f" c3MoveSt = .ok (some v, st2) ∧ v ≠ "a" ∧
      mapGet st2.stickyMap "f" = some v) :=
  ⟨(sticky_session_resolution c3HitSt "f" "a" rfl).1
      ⟨mkServer "a" true, by decide, rfl, rfl⟩,
    ((sticky_session_resolution c3MoveSt "f" "a" rfl).2
      (by decide)).2 (by decide)⟩

/-- Claim C4: when zero backends are healthy, `resolveTarget` returns
`none` (the sticky lookup and the round-robin fallback both yield
nothing, and the state is untouched) and `dispatch` answers 503 with an
empty attempt list — the forwarding capability is never invoked, whatever
`fwd` would do. -/
theorem no_healthy_unavailable (st : LBState) (cid : String)
    (h : ∀ s, s ∈ st.servers → s.healthy = false) :
    resolveTarget cid st = .ok (none, st) ∧
    ∀ fwd, dispatch cid fwd st =
      .ok (DispatchResult.unavailable503, [], st) := by
  have hlen : (aliveList st.servers).length = 0 := by
    have hnil : aliveList st.servers = [] := by
      simp only [aliveList, List.filter_eq_nil_iff]
      intro a ha
      simp [h a ha]
    rw [hnil]
    rfl
  have hgs : getStickyServer cid st = none := by
    cases hm : mapGet st.stickyMap cid with
    | none => unfold getStickyServer; rw [hm]
    | some url =>
      exact getStickyServer_none_of_unhealthy st cid url hm
        (fun s hs _ => h s hs)
  have hcs : chooseServer st.servers st.index = .ok (none, st.index) := by
    unfold chooseServer
    rw [if_pos hlen]
  have hrt : resolveTarget cid st = .ok (none, st) := by
    simp only [resolveTarget, hgs, hcs]
  exact ⟨hrt, fun fwd => by simp only [dispatch, hrt]⟩

/-- Witness for C4: the one configured backend is down; the resolver
returns `none` and the dispatch answers 503 with no forward attempt. -/
theorem no_healthy_unavailable_witness :
    resolveTarget "c" c4St = .ok (none, c4St) ∧
    dispatch "c" (fun _ _ => true) c4St =
      .ok (DispatchResult.unavailable503, [], c4St) :=
  ⟨(no_healthy_unavailable c4St "c" (by decide)).1,
    (no_healthy_unavailable c4St "c" (by decide)).2 (fun _ _ => true)⟩

/-- Claim C5: with the registry fixed, `N` healthy backends and the
cursor in range, `n` consecutive round-robin-only selections succeed, the
`k`-th returning the healthy backend at position `(cursor + k) mod N` —
registry order, cycling — and a full block of `N` selections returns a
permutation of the healthy urls, i.e. each healthy backend exactly
once. -/
theorem round_robin_cycle (st : LBState) (n : Nat)
    (hi : st.index < (aliveList st.servers).length) :
    ∃ outs st2, selectN n st = .ok (outs, st2) ∧
      outs.length = n ∧
      (∀ k, k < n →
        outs[k]? =
          ((aliveList st.servers)[(st.index + k) %
              (aliveList st.servers).length]?).map (fun s => some s.url)) ∧
      (n = (aliveList st.servers).length →
        outs.Perm ((aliveList st.servers).map (fun s => some s.url))) := by
  obtain ⟨outs, st2, heq, hlen, _, _, _, hget⟩ := selectN_spec n st hi
  refine ⟨outs, st2, heq, hlen, hget, fun hn => ?_⟩
  subst hn
  exact selectN_full_cycle_perm st outs st2 hi heq

/-- Witness for C5: three healthy backends a, b, c and cursor 0; five
consecutive selections return a, b, c, a, b in that order. -/
theorem round_robin_cycle_witness :
    (∃ outs st2, selectN 5 cycleSt = .ok (outs, st2) ∧
      outs.length = 5 ∧
      (∀ k, k < 5 →
        outs[k]? =
          ((aliveList cycleSt.servers)[(cycleSt.index + k) %
              (aliveList cycleSt.servers).length]?).map
            (fun s => some s.url)) ∧
      (5 = (aliveList cycleSt.servers).length →
        outs.Perm ((aliveList cycleSt.servers).map (fun s => some s.url)))) ∧
    (selectN 5 cycleSt).map (fun r => r.1) =
      .ok [some "a", some "b", some "c", some "a", some "b"] :=
  ⟨round_robin_cycle cycleSt 5 (by decide), rfl⟩

/-- Claim C6: a completed probe is classified a success exactly on a
status in [200, 300): then the backend turns healthy, the wall-clock
latency `tEnd - start` is recorded and appended to the history, and the
success counter is bumped; on any other status or on a transport error
the backend turns unhealthy, the response time is cleared, the failure
counter is bumped and the `0` down marker is appended; the last-check
stamp is updated in both cases. -/
theorem probe_classification (s : Server) (start tEnd : Nat)
    (res : Option Nat) :
    (checkHealthOne s start tEnd res).lastCheck = some tEnd ∧
    (∀ code, res = some code → 200 ≤ code → code < 300 →
      (checkHealthOne s start tEnd res).healthy = true ∧
      (checkHealthOne s start tEnd res).responseTime = some (tEnd - start) ∧
      (checkHealthOne s start tEnd res).uptime = s.uptime + 1 ∧
      (checkHealthOne s start tEnd res).downtime = s.downtime ∧
      (checkHealthOne s start tEnd res).history =
        trimmed s.history ++ [HistEntry.num (tEnd - start)]) ∧
    ((∀ code, res = some code → ¬(200 ≤ code ∧ code < 300)) →
      (checkHealthOne s start tEnd res).healthy = false ∧
      (checkHealthOne s start tEnd res).responseTime = none ∧
      (checkHealthOne s start tEnd res).uptime = s.uptime ∧
      (checkHealthOne s start tEnd res).downtime = s.downtime + 1 ∧
      (checkHealthOne s start tEnd res).history =
        trimmed s.history ++ [HistEntry.num 0]) := by
  refine ⟨?_, ?_, ?_⟩
  · rcases res with _ | code
    · simp [checkHealthOne, apply_ite (fun x : Server => x.lastCheck)]
    · by_cases hc : 200 ≤ code ∧ code < 300 <;>
        simp [checkHealthOne, hc, apply_ite (fun x : Server => x.lastCheck)]
  · intro code hres h1 h2
    subst hres
    have hc : 200 ≤ code ∧ code < 300 := ⟨h1, h2⟩
    have hhist := checkHealthOne_history s start tEnd (some code)
    refine ⟨?_, ?_, ?_, ?_, ?_⟩ <;>
      first
      | (rw [hhist]; simp [pushedEntry, hc])
      | simp [checkHealthOne, hc, apply_ite (fun x : Server => x.healthy),
          apply_ite (fun x : Server => x.responseTime),
          apply_ite (fun x : Server => x.uptime),
          apply_ite (fun x : Server => x.downtime)]
  · intro hnot
    have hhist := checkHealthOne_history s start tEnd res
    rcases res with _ | code
    · refine ⟨?_, ?_, ?_, ?_, ?_⟩ <;>
        first
        | (rw [hhist]; simp [pushedEntry])
        | simp [checkHealthOne, apply_ite (fun x : Server => x.healthy),
            apply_ite (fun x : Server => x.responseTime),
            apply_ite (fun x : Server => x.uptime),
            apply_ite (fun x : Server => x.downtime)]
    · have hc := hnot code rfl
      refine ⟨?_, ?_, ?_, ?_, ?_⟩ <;>
        first
        | (rw [hhist]; simp [pushedEntry, hc])
        | simp [checkHealthOne, hc, apply_ite (fun x : Server => x.healthy),
            apply_ite (fun x : Server => x.responseTime),
            apply_ite (fun x : Server => x.uptime),
            apply_ite (fun x : Server => x.downtime)]

/-- Witness for C6: a 204 probe taking 15ms marks the backend healthy
with that latency; a 503 probe and a transport error both mark it down
and bump the failure counter. -/
theorem probe_classification_witness :
    (checkHealthOne (mkServer "a" false) 10 25 (some 204)).healthy = true ∧
    (checkHealthOne (mkServer "a" false) 10 25 (some 204)).responseTime =
      some 15 ∧
    (checkHealthOne (mkServer "a" true) 10 25 (some 503)).healthy = false ∧
    (checkHealthOne (mkServer "a" true) 10 25 none).downtime = 1 :=
  ⟨((probe_classification (mkServer "a" false) 10 25 (some 204)).2.1 204 rfl
      (by decide) (by decide)).1,
   ((probe_classification (mkServer "a" false) 10 25 (some 204)).2.1 204 rfl
      (by decide) (by decide)).2.1,
   ((probe_classification (mkServer "a" true) 10 25 (some 503)).2.2
      (by intro code hcode; cases hcode; decide)).1,
   ((probe_classification (mkServer "a" true) 10 25 none).2.2
      (by intro code hcode; cases hcode)).2.2.2.1⟩

/-- Claim C7: starting from the initial server state, the history never
exceeds 20 entries under any sequence of completed probes (in fact it
stays exactly 20), and eviction is FIFO: a push onto a history at
capacity drops exactly the single oldest entry, keeping the most recent
entries in order. -/
theorem history_capacity_fifo (d : Desc)
    (ps : List (Nat × Nat × Option Nat)) :
    (runProbes (initServer d) ps).history.length ≤ 20 ∧
    (∀ (s : Server) (start tEnd : Nat) (res : Option Nat),
      s.history.length = 20 →
      (checkHealthOne s start tEnd res).history =
        s.history.tail ++ [pushedEntry start tEnd res]) := by
  constructor
  · have h := runProbes_history_length (initServer d) ps (by simp [initServer])
    omega
  · intro s start tEnd res hlen
    rw [checkHealthOne_history]
    have : trimmed s.history = s.history.tail := by
      simp [trimmed, hlen]
    rw [this]

/-- Witness for C7: one probe on a fresh backend keeps the history at 20
entries, and a push on a full history drops the head. -/
theorem history_capacity_fifo_witness :
    (runProbes (initServer { url := "a", region := none })
        [(0, 5, some 200)]).history.length ≤ 20 ∧
    (checkHealthOne (mkServer "w" true) 0 5 (some 200)).history =
      (mkServer "w" true).history.tail ++ [pushedEntry 0 5 (some 200)] :=
  ⟨(history_capacity_fifo { url := "a", region := none }
      [(0, 5, some 200)]).1,
   (history_capacity_fifo { url := "a", region := none }
      [(0, 5, some 200)]).2 (mkServer "w" true) 0 5 (some 200) rfl⟩

/-- Claim C8: after a successful reload, every backend of the new
registry is in the initial state — unhealthy, no timing, zero counters,
all-blank history — whatever the previous registry held, even under a
repeated address. -/
theorem reload_resets (st st2 : LBState) (descs : List Desc) (s : Server)
    (h : reloadCallback (some descs) st = .ok st2)
    (hmem : s ∈ st2.servers) :
    s.healthy = false ∧ s.responseTime = none ∧ s.lastCheck = none ∧
    s.uptime = 0 ∧ s.downtime = 0 ∧
    s.history = List.replicate 20 HistEntry.blank := by
  have hrc : reloadCallback (some descs) st = .ok (reloadOk descs st) := rfl
  rw [hrc] at h
  injection h with h2
  rw [← h2] at hmem
  have hmem2 : s ∈ descs.map initServer := hmem
  obtain ⟨d, hd, rfl⟩ := List.mem_map.mp hmem2
  exact ⟨rfl, rfl, rfl, rfl, rfl, rfl⟩

/-- A descriptor whose address coincides with `dirtyServer`'s. -/
def dA : Desc := { url := "a", region := some "eu" }

/-- Witness for C8: reloading over `dirtySt` (which holds a fully
populated backend at the same address "a") yields a registry whose sole
entry is back in the initial state. -/
theorem reload_resets_witness :
    (initServer dA).healthy = false ∧
    (initServer dA).responseTime = none ∧
    (initServer dA).lastCheck = none ∧
    (initServer dA).uptime = 0 ∧
    (initServer dA).downtime = 0 ∧
    (initServer dA).history = List.replicate 20 HistEntry.blank :=
  reload_resets dirtySt (reloadOk [dA] dirtySt) [dA] (initServer dA) rfl
    (by decide)

/-- Claim C9: reload is indeed all-or-nothing — the registry is replaced
only on a successful parse, so a parse failure leaves the previous
registry in place — but the failure is not non-fatal as claimed:
`JSON.parse` throws inside the `fs.watch` callback, there is no
try/catch, and the exception escapes the callback, which in Node is an
uncaught exception that terminates the process. -/
theorem reload_malformed_escapes :
    reloadCallback none dirtySt = .error "SyntaxError" ∧
    reloadCallback (some [dA]) dirtySt =
      .ok { dirtySt with servers := [initServer dA] } :=
  ⟨rfl, rfl⟩

/-- Claim C10: the retry pick of a failed dispatch is never written to
the sticky table: after a dispatch whose first forward failed, the client
is still mapped to the originally resolved address `u` (the retry only
moved the cursor), and while some backend with url `u` is healthy a
subsequent resolution for the client returns `u` again with the state
unchanged. -/
theorem retry_not_sticky (st st1 : LBState) (cid u : String)
    (fwd : Nat → Option String → Bool) (t2 : Option String) (i2 : Nat)
    (h1 : resolveTarget cid st = .ok (some u, st1))
    (hf : fwd 0 (some u) = false)
    (h2 : chooseServer st1.servers st1.index = .ok (t2, i2)) :
    ∃ res, dispatch cid fwd st =
        .ok (res, [some u, t2], { st1 with index := i2 }) ∧
      ({ st1 with index := i2 } : LBState).stickyMap = st1.stickyMap ∧
      mapGet ({ st1 with index := i2 } : LBState).stickyMap cid = some u ∧
      ((∃ s, s ∈ st1.servers ∧ s.url = u ∧ s.healthy = true) →
        resolveTarget cid { st1 with index := i2 } =
          .ok (some u, { st1 with index := i2 })) := by
  refine ⟨_, dispatch_retry_run st st1 cid u fwd t2 i2 h1 hf h2, rfl,
    resolveTarget_some_maps st st1 cid u h1, fun hex => ?_⟩
  exact resolveTarget_sticky_hit { st1 with index := i2 } cid u
    (resolveTarget_some_maps st st1 cid u h1) hex

/-- Witness for C10: first forward to "a" fails, the retry to "b"
succeeds; the sticky table still maps client "c" to "a", and the next
resolution returns "a" again. -/
theorem retry_not_sticky_witness :
    mapGet wStEnd.stickyMap "c" = some "a" ∧
    resolveTarget "c" wStEnd = .ok (some "a", wStEnd) := by
  obtain ⟨res, hd, hframe, hmap, hnext⟩ :=
    retry_not_sticky wSt wSt1 "c" "a" (fun n _ => n == 1) (some "b") 0
      rfl rfl rfl
  exact ⟨hmap, hnext ⟨mkServer "a" true, by decide, rfl, rfl⟩⟩
